import Mathlib

/-!
Shallow embedding of the OctoBot automation engine
(`octobot/automation/automation.py`) and proofs about its binding pass,
per-rule runtime loop and dispatcher lifecycle.

Python dictionaries whose keys are indexed with `d[k]` are modelled with
`Option`-valued fields (a `none` field is an absent key, and indexing it
raises `KeyError`); dictionaries only read through `d.get(k, default)` are
modelled as association lists read through `List.lookup` with a default.
-/

namespace Automation

/-- Python exceptions observable in the automation module. -/
inductive PyError where
  | keyError (key : String)
  | valueError
  | disabledError (msg : String)
  | exc (msg : String)
deriving DecidableEq, Repr

/-- An opaque per-step configuration blob (the nested sub-config dict). -/
abbrev StepConfig := List (String × String)

/-- A configured step instance: built by `_create_step` as
`classes[step_name]()` followed by `step.apply_config(...)`.  The runtime
identity of the instance is its class plus the configuration applied. -/
structure Step where
  className : String
  config : StepConfig
deriving DecidableEq, Repr

/-- One entry of the `automations` table: the per-rule dict.  The keys
`trigger_event`, `conditions` and `actions` are indexed directly by the
source (hence `Option`: `none` means the key is absent and indexing raises
`KeyError`); per-step sub-configs are only read via `.get(step_name, {})`. -/
structure AutomationConfig where
  trigger_event : Option String
  conditions : Option (List String)
  actions : Option (List String)
  step_configs : List (String × StepConfig)
deriving DecidableEq, Repr

/-- The full automations configuration: `automations_count` read via
`.get(AUTOMATIONS_COUNT, 0)` and the ordered `automations` dict read via
`.get(AUTOMATIONS, {}).items()` (insertion order). -/
structure AutomationsConfig where
  automations_count : Option Int
  automations : List (String × AutomationConfig)
deriving DecidableEq, Repr

/-- A registry snapshot for one capability category: the mapping
implementation name -> implementation class, as produced by
`get_all_steps`. -/
abbrev Reg := List (String × String)

/-- `AutomationDetails(trigger_event, conditions, actions)`: the bound,
runtime-executable form of one rule. -/
structure AutomationDetails where
  trigger_event : Step
  conditions : List Step
  actions : List Step
deriving DecidableEq, Repr

/-- Digit-string accumulator for `py_int`. -/
def parse_digits (cs : List Char) (acc : Nat) : Option Nat :=
  match cs with
  | [] => some acc
  | c :: rest =>
    if c.isDigit then parse_digits rest (acc * 10 + (c.toNat - 48)) else none

/-- Python `int(s)` on a string: an optional sign followed by at least one
decimal digit yields the value, anything else raises `ValueError`
(modelled as `none`). -/
def py_int (s : String) : Option Int :=
  match s.data with
  | [] => none
  | '-' :: rest =>
    match rest with
    | [] => none
    | _ => (parse_digits rest 0).map (fun n => -(n : Int))
  | '+' :: rest =>
    match rest with
    | [] => none
    | _ => (parse_digits rest 0).map (fun n => (n : Int))
  | cs => (parse_digits cs 0).map (fun n => (n : Int))

/-- `_create_step`: `step = classes[step_name]()` (a `KeyError` if the name
is not in the registry snapshot) then
`step.apply_config(automations_config.get(step_name, {}))`. -/
def create_step (ac : AutomationConfig) (stepName : String) (classes : Reg) :
    Except PyError Step :=
  match List.lookup stepName classes with
  | none => .error (.keyError stepName)
  | some cls => .ok ⟨cls, (List.lookup stepName ac.step_configs).getD []⟩

/-- The list comprehension `[self._create_step(cfg, name, classes) for name
in names]`: steps are created left to right and the first `KeyError`
propagates. -/
def create_steps (ac : AutomationConfig) (names : List String) (classes : Reg) :
    Except PyError (List Step) :=
  match names with
  | [] => .ok []
  | n :: rest =>
    match create_step ac n classes with
    | .error e => .error e
    | .ok s =>
      match create_steps ac rest classes with
      | .error e => .error e
      | .ok ss => .ok (s :: ss)

/-- `_is_valid_automation_config`: the per-rule config is valid iff
`automation_config.get(TRIGGER_EVENT) is not None`. -/
def is_valid_automation_config (ac : AutomationConfig) : Bool :=
  ac.trigger_event.isSome

/-- The loop body of `_create_automation_details`, iterating the ordered
`automations` entries.  `acc` is the current `self.automation_details` list
(the source appends to it).  The result is the final list together with the
exception that escaped the loop, if any: `int(automation_id)` raises
`ValueError` on a non-numeric id; `int(automation_id) > automations_count`
executes `return`; an invalid config executes `continue`; step creation
propagates `KeyError`s. -/
def create_automation_details_go (allE allC allA : Reg) (count : Int) :
    List (String × AutomationConfig) → List AutomationDetails →
    List AutomationDetails × Option PyError
  | [], acc => (acc, none)
  | (aid, ac) :: rest, acc =>
    match py_int aid with
    | none => (acc, some .valueError)
    | some n =>
      if n > count then (acc, none)
      else
        match ac.trigger_event with
        | none => create_automation_details_go allE allC allA count rest acc
        | some tname =>
          match create_step ac tname allE with
          | .error e => (acc, some e)
          | .ok ev =>
            match ac.conditions with
            | none => (acc, some (.keyError "conditions"))
            | some cnames =>
              match create_steps ac cnames allC with
              | .error e => (acc, some e)
              | .ok conds =>
                match ac.actions with
                | none => (acc, some (.keyError "actions"))
                | some anames =>
                  match create_steps ac anames allA with
                  | .error e => (acc, some e)
                  | .ok acts =>
                    create_automation_details_go allE allC allA count rest
                      (acc ++ [⟨ev, conds, acts⟩])

/-- `_create_automation_details`: reads `automations_count` (default `0`)
and folds over the `automations` entries, appending to the current
`self.automation_details` list `init`. -/
def create_automation_details (allE allC allA : Reg) (cfg : AutomationsConfig)
    (init : List AutomationDetails) :
    List AutomationDetails × Option PyError :=
  create_automation_details_go allE allC allA (cfg.automations_count.getD 0)
    cfg.automations init

/-- The step a successful `_create_step` builds, spelled out: the class the
registry maps the name to, configured with the step's sub-config. -/
def step_of (classes : Reg) (ac : AutomationConfig) (name : String) : Step :=
  ⟨(List.lookup name classes).getD "", (List.lookup name ac.step_configs).getD []⟩

/-- The `AutomationDetails` value produced for one fully resolvable entry. -/
def build_detail (allE allC allA : Reg) (ac : AutomationConfig) : AutomationDetails :=
  ⟨step_of allE ac (ac.trigger_event.getD ""),
   (ac.conditions.getD []).map (step_of allC ac),
   (ac.actions.getD []).map (step_of allA ac)⟩

/-- An entry is fully well-formed: numeric id, trigger key present and
resolvable, `conditions` and `actions` keys present with every listed name
resolvable. -/
def entry_ok (allE allC allA : Reg) (p : String × AutomationConfig) : Bool :=
  (py_int p.1).isSome &&
  (match p.2.trigger_event with
   | some t => (List.lookup t allE).isSome
   | none => false) &&
  (match p.2.conditions with
   | some cs => cs.all (fun c => (List.lookup c allC).isSome)
   | none => false) &&
  (match p.2.actions with
   | some al => al.all (fun a => (List.lookup a allA).isSome)
   | none => false)

/-- An entry's numeric id is within the declared automations count. -/
def in_count (count : Int) (p : String × AutomationConfig) : Bool :=
  match py_int p.1 with
  | some n => decide (n ≤ count)
  | none => false

theorem create_step_resolved (ac : AutomationConfig) (name : String) (classes : Reg)
    (h : (List.lookup name classes).isSome = true) :
    create_step ac name classes = .ok (step_of classes ac name) := by
  unfold create_step step_of
  cases hl : List.lookup name classes with
  | none => rw [hl] at h; simp at h
  | some cls => simp [hl]

theorem create_step_error (ac : AutomationConfig) (name : String) (classes : Reg)
    (e : PyError) (h : create_step ac name classes = .error e) :
    e = .keyError name ∧ List.lookup name classes = none := by
  unfold create_step at h
  cases hl : List.lookup name classes with
  | none => rw [hl] at h; exact ⟨(Except.error.inj h).symm, rfl⟩
  | some cls => rw [hl] at h; cases h

theorem create_steps_resolved (ac : AutomationConfig) (names : List String)
    (classes : Reg) (h : ∀ n ∈ names, (List.lookup n classes).isSome = true) :
    create_steps ac names classes = .ok (names.map (step_of classes ac)) := by
  induction names with
  | nil => rfl
  | cons n rest ih =>
    unfold create_steps
    rw [create_step_resolved ac n classes (h n (by simp)),
      ih (fun m hm => h m (by simp [hm]))]
    rfl

theorem create_steps_first_unresolvable (ac : AutomationConfig) (classes : Reg)
    (pre : List String) (bad : String) (post : List String)
    (hpre : ∀ n ∈ pre, (List.lookup n classes).isSome = true)
    (hbad : List.lookup bad classes = none) :
    create_steps ac (pre ++ bad :: post) classes = .error (.keyError bad) := by
  induction pre with
  | nil => simp only [List.nil_append]; unfold create_steps create_step; rw [hbad]
  | cons n rest ih =>
    simp only [List.cons_append]
    unfold create_steps
    rw [create_step_resolved ac n classes (hpre n (by simp)),
      ih (fun m hm => hpre m (by simp [hm]))]

theorem create_steps_error_is_keyError (ac : AutomationConfig) (names : List String)
    (classes : Reg) (e : PyError) (h : create_steps ac names classes = .error e) :
    ∃ k, e = .keyError k := by
  induction names generalizing e with
  | nil => cases h
  | cons n rest ih =>
    unfold create_steps at h
    cases hs : create_step ac n classes with
    | error e₁ =>
      rw [hs] at h
      exact ⟨n, (Except.error.inj h).symm.trans (create_step_error ac n classes e₁ hs).1⟩
    | ok s =>
      rw [hs] at h
      cases hr : create_steps ac rest classes with
      | error e₂ => rw [hr] at h; exact (Except.error.inj h) ▸ ih e₂ hr
      | ok ss => rw [hr] at h; cases h

theorem create_automation_details_go_all_ok (allE allC allA : Reg) (count : Int)
    (entries : List (String × AutomationConfig)) (acc : List AutomationDetails)
    (h : ∀ p ∈ entries, entry_ok allE allC allA p = true) :
    create_automation_details_go allE allC allA count entries acc =
      (acc ++ (entries.takeWhile (in_count count)).map
        (fun p => build_detail allE allC allA p.2), none) := by
  induction entries generalizing acc with
  | nil => simp [create_automation_details_go]
  | cons p rest ih =>
    obtain ⟨aid, ac⟩ := p
    have hp := h (aid, ac) (by simp)
    unfold entry_ok at hp
    simp only [Bool.and_eq_true] at hp
    obtain ⟨⟨⟨hid, htrig⟩, hconds⟩, hacts⟩ := hp
    cases hpy : py_int aid with
    | none => rw [hpy] at hid; simp at hid
    | some n =>
      cases htr : ac.trigger_event with
      | none => rw [htr] at htrig; simp at htrig
      | some tname =>
        rw [htr] at htrig; simp only at htrig
        cases hc : ac.conditions with
        | none => rw [hc] at hconds; simp at hconds
        | some cnames =>
          rw [hc] at hconds; simp only [List.all_eq_true] at hconds
          cases ha : ac.actions with
          | none => rw [ha] at hacts; simp at hacts
          | some anames =>
            rw [ha] at hacts; simp only [List.all_eq_true] at hacts
            by_cases hcount : n > count
            · have hin : in_count count (aid, ac) = false := by
                simp [in_count, hpy, not_le.mpr hcount]
              simp [create_automation_details_go, hpy, hcount, hin]
            · have hin : in_count count (aid, ac) = true := by
                simp [in_count, hpy, not_lt.mp hcount]
              rw [List.takeWhile_cons_of_pos hin]
              simp only [create_automation_details_go, hpy, if_neg hcount, htr,
                create_step_resolved ac tname allE htrig, hc,
                create_steps_resolved ac cnames allC (fun c hcmem =>
                  by simpa using hconds c hcmem), ha,
                create_steps_resolved ac anames allA (fun a hamem =>
                  by simpa using hacts a hamem)]
              rw [ih _ (fun q hq => h q (by simp [hq]))]
              simp [build_detail, htr, hc, ha, List.append_assoc]

/-- A one-entry registry resolving the name `T` for concrete checks. -/
def reg_t : Reg := [("T", "TCls")]

/-- A per-rule config whose trigger name `T` is present, with empty
condition and action lists. -/
def ac_t : AutomationConfig := ⟨some "T", some [], some [], []⟩

/-- The rule `ac_t` binds to when `T` resolves through `reg_t`. -/
def detail_t : AutomationDetails := ⟨⟨"TCls", []⟩, [], []⟩

/-- Claim C1 (corrected): a configured rule whose trigger name is absent
from the configuration is skipped by the binding pass with no exception and
processing continues with the remaining rule ids; but a rule whose trigger
name is present and not resolvable in the registry snapshot instead raises
a `KeyError` naming the trigger, which aborts the binding pass (keeping only
the rules already bound). -/
theorem claim1_trigger_handling (allE allC allA : Reg) (count : Int) (aid : String)
    (ac : AutomationConfig) (rest : List (String × AutomationConfig))
    (acc : List AutomationDetails) (n : Int)
    (hid : py_int aid = some n) (hle : n ≤ count) :
    (ac.trigger_event = none →
      create_automation_details_go allE allC allA count ((aid, ac) :: rest) acc =
        create_automation_details_go allE allC allA count rest acc) ∧
    (∀ tname, ac.trigger_event = some tname → List.lookup tname allE = none →
      create_automation_details_go allE allC allA count ((aid, ac) :: rest) acc =
        (acc, some (.keyError tname))) := by
  have hng : ¬ n > count := not_lt.mpr hle
  constructor
  · intro htrig
    conv_lhs => rw [create_automation_details_go]
    simp [hid, hng, htrig]
  · intro tname htrig hlook
    simp [create_automation_details_go, hid, hng, htrig, create_step, hlook]

/-- Claim C1 witness: a rule with no `trigger_event` key value is skipped
and binding continues. -/
theorem claim1_witness :
    create_automation_details_go [] [] [] 1
        [("1", ⟨none, some [], some [], []⟩)] [] =
      create_automation_details_go [] [] [] 1 [] [] :=
  (claim1_trigger_handling [] [] [] 1 "1" ⟨none, some [], some [], []⟩ [] [] 1
    (by decide) (by decide)).1 rfl

/-- Claim C1 counterexample: a rule whose trigger name `T` is present in
config but not resolvable in the (empty) registry snapshot makes the
binding pass raise `KeyError`, contradicting "raises no exception, and
continues to process the remaining rule ids". -/
theorem claim1_counterexample :
    List.lookup "T" ([] : Reg) = none ∧
    create_automation_details [] [] []
        ⟨some 1, [("1", ⟨some "T", some [], some [], []⟩)]⟩ [] =
      ([], some (.keyError "T")) := by
  decide

/-- Claim C2 (corrected): for a configured rule with a resolvable trigger,
an unresolvable condition or action name is not dropped: the first listed
condition name not resolvable in the registry snapshot (all earlier ones
resolvable) raises `KeyError` naming it, so the Rule is not built and the
binding pass is aborted; the same holds for the first unresolvable action
name when all conditions resolve. -/
theorem claim2_unresolvable_step_aborts (allE allC allA : Reg) (count : Int)
    (aid : String) (ac : AutomationConfig)
    (rest : List (String × AutomationConfig)) (acc : List AutomationDetails)
    (n : Int) (tname : String)
    (hid : py_int aid = some n) (hle : n ≤ count)
    (htrig : ac.trigger_event = some tname)
    (htres : (List.lookup tname allE).isSome = true) :
    (∀ pre bad post, ac.conditions = some (pre ++ bad :: post) →
      (∀ c ∈ pre, (List.lookup c allC).isSome = true) →
      List.lookup bad allC = none →
      create_automation_details_go allE allC allA count ((aid, ac) :: rest) acc =
        (acc, some (.keyError bad))) ∧
    (∀ cnames pre bad post, ac.conditions = some cnames →
      (∀ c ∈ cnames, (List.lookup c allC).isSome = true) →
      ac.actions = some (pre ++ bad :: post) →
      (∀ a ∈ pre, (List.lookup a allA).isSome = true) →
      List.lookup bad allA = none →
      create_automation_details_go allE allC allA count ((aid, ac) :: rest) acc =
        (acc, some (.keyError bad))) := by
  have hng : ¬ n > count := not_lt.mpr hle
  constructor
  · intro pre bad post hconds hpre hbad
    simp [create_automation_details_go, hid, hng, htrig,
      create_step_resolved ac tname allE htres, hconds,
      create_steps_first_unresolvable ac allC pre bad post hpre hbad]
  · intro cnames pre bad post hconds hcall hacts hpre hbad
    simp [create_automation_details_go, hid, hng, htrig,
      create_step_resolved ac tname allE htres, hconds,
      create_steps_resolved ac cnames allC hcall, hacts,
      create_steps_first_unresolvable ac allA pre bad post hpre hbad]

/-- Claim C2 witness: a rule with resolvable trigger `T` and the single
unresolvable condition name `BadC` aborts binding with `KeyError "BadC"`. -/
theorem claim2_witness :
    create_automation_details_go reg_t [] [] 1
        [("1", ⟨some "T", some ["BadC"], some [], []⟩)] [] =
      ([], some (.keyError "BadC")) :=
  (claim2_unresolvable_step_aborts reg_t [] [] 1 "1"
      ⟨some "T", some ["BadC"], some [], []⟩ [] [] 1 "T"
      (by decide) (by decide) rfl (by decide)).1
    [] "BadC" [] rfl (by simp) (by decide)

/-- Claim C2 counterexample: with trigger `T` resolvable and condition name
`BadC` unresolvable, the binding pass fails with `KeyError "BadC"` and
builds no Rule, contradicting "dropped individually ... the Rule is still
built; binding does not fail". -/
theorem claim2_counterexample :
    List.lookup "T" reg_t = some "TCls" ∧
    List.lookup "BadC" ([] : Reg) = none ∧
    create_automation_details reg_t [] []
        ⟨some 1, [("1", ⟨some "T", some ["BadC"], some [], []⟩)]⟩ [] =
      ([], some (.keyError "BadC")) := by
  decide

/-- Claim C3 (corrected): when every configured entry is well-formed (numeric
id, resolvable trigger, `conditions`/`actions` keys present with resolvable
names), the binding pass produces exactly one Rule per entry encountered
before the first entry whose numeric id exceeds the declared rule count, in
the configuration's iteration order; at the first over-count entry the pass
stops entirely, so that entry and every later entry (even ids within the
count) produce no Rule. -/
theorem claim3_binding_truncation (allE allC allA : Reg) (cfg : AutomationsConfig)
    (init : List AutomationDetails)
    (h : ∀ p ∈ cfg.automations, entry_ok allE allC allA p = true) :
    create_automation_details allE allC allA cfg init =
      (init ++ (cfg.automations.takeWhile (in_count (cfg.automations_count.getD 0))).map
        (fun p => build_detail allE allC allA p.2), none) :=
  create_automation_details_go_all_ok allE allC allA
    (cfg.automations_count.getD 0) cfg.automations init h

/-- Claim C3 witness: count 1, entries `["1", "2"]` in ascending order: one
Rule is bound for entry 1 and none for the over-count entry 2. -/
theorem claim3_witness :
    create_automation_details reg_t [] [] ⟨some 1, [("1", ac_t), ("2", ac_t)]⟩ [] =
      ([detail_t], none) := by
  rw [claim3_binding_truncation reg_t [] [] ⟨some 1, [("1", ac_t), ("2", ac_t)]⟩ []
    (by decide)]
  decide

/-- Claim C3 counterexample: count 1 with entries in iteration order
`["2", "1"]`: the over-count entry 2 stops the pass, so the valid in-count
entry 1 is never bound, although binding that same entry alone succeeds —
contradicting "such an over-count entry is ignored without affecting the
binding of entries whose id is within the count". -/
theorem claim3_counterexample :
    create_automation_details reg_t [] [] ⟨some 1, [("2", ac_t), ("1", ac_t)]⟩ [] =
      ([], none) ∧
    create_automation_details reg_t [] [] ⟨some 1, [("1", ac_t)]⟩ [] =
      ([detail_t], none) := by
  decide

/-- Claim C10 (confirmed): an automation config entry that contains a
`trigger_event` key but lacks the `conditions` key or the `actions` key
makes the binding pass raise an uncaught `KeyError`: no Rule is produced for
that entry and every subsequent entry of the pass is abandoned (the result
keeps exactly the rules bound before the entry). -/
theorem claim10_missing_key_aborts (allE allC allA : Reg) (count : Int)
    (aid : String) (ac : AutomationConfig)
    (rest : List (String × AutomationConfig)) (acc : List AutomationDetails)
    (n : Int) (tname : String)
    (hid : py_int aid = some n) (hle : n ≤ count)
    (htrig : ac.trigger_event = some tname)
    (hmiss : ac.conditions = none ∨ ac.actions = none) :
    ∃ k, create_automation_details_go allE allC allA count ((aid, ac) :: rest) acc =
      (acc, some (.keyError k)) := by
  have hng : ¬ n > count := not_lt.mpr hle
  cases hcs : create_step ac tname allE with
  | error e =>
    obtain ⟨hk, _⟩ := create_step_error ac tname allE e hcs
    exact ⟨tname, by simp [create_automation_details_go, hid, hng, htrig, hcs, hk]⟩
  | ok ev =>
    rcases hmiss with hc | ha
    · exact ⟨"conditions", by simp [create_automation_details_go, hid, hng, htrig, hcs, hc]⟩
    · cases hc : ac.conditions with
      | none =>
        exact ⟨"conditions", by simp [create_automation_details_go, hid, hng, htrig, hcs, hc]⟩
      | some cnames =>
        cases hcr : create_steps ac cnames allC with
        | error e =>
          obtain ⟨k, hk⟩ := create_steps_error_is_keyError ac cnames allC e hcr
          exact ⟨k, by simp [create_automation_details_go, hid, hng, htrig, hcs, hcr, hc, hk]⟩
        | ok conds =>
          exact ⟨"actions", by simp [create_automation_details_go, hid, hng, htrig, hcs, hc, hcr, ha]⟩

/-- Claim C10 witness: an entry with a `trigger_event` key but no
`conditions` key aborts the binding pass with a `KeyError`, keeping only the
previously bound rules (here none). -/
theorem claim10_witness :
    ∃ k, create_automation_details_go reg_t [] [] 1
        [("1", ⟨some "T", none, some [], []⟩), ("2", ac_t)] [] =
      ([], some (.keyError k)) :=
  claim10_missing_key_aborts reg_t [] [] 1 "1" ⟨some "T", none, some [], []⟩
    [("2", ac_t)] [] 1 "T" (by decide) (by decide) rfl (Or.inl rfl)

/-- The runtime behavior of one bound rule as consumed by
`_run_automation`: the trigger produces firing `k = 0, 1, ...` (finitely
many when `numEvents = some m`, an unbounded sequence when `none`), and each
condition's `evaluate()` and each action's `process()` either returns or
raises, possibly differently at each firing. -/
structure RuleBehavior where
  triggerName : String
  numEvents : Option Nat
  conditions : List (String × (Nat → Except PyError Bool))
  actions : List (String × (Nat → Except PyError Unit))

/-- `_check_conditions` at firing `k`: conditions are awaited one by one in
declared order; the first `False` returns `False` (skipping the rest), an
exception propagates, and the end of the list returns `True`.  The first
component records, in order, exactly the conditions whose `evaluate()` was
called. -/
def check_conditions (k : Nat) :
    List (String × (Nat → Except PyError Bool)) → List String × Except PyError Bool
  | [] => ([], .ok true)
  | (cname, ev) :: rest =>
    match ev k with
    | .error e => ([cname], .error e)
    | .ok false => ([cname], .ok false)
    | .ok true =>
      let r := check_conditions k rest
      (cname :: r.1, r.2)

/-- `_process_actions` at firing `k`: every action in declared order is
attempted inside `try/except Exception`; a raised exception is caught and
logged.  The result records each attempted action with the exception it
raised, if any. -/
def process_actions (k : Nat)
    (acts : List (String × (Nat → Except PyError Unit))) :
    List (String × Option PyError) :=
  acts.map (fun a => (a.1,
    match a.2 k with
    | .ok _ => none
    | .error e => some e))

/-- What one iteration of `_run_automation`'s `async for` body observably
did at firing `k`. -/
structure FiringRecord where
  conditions_evaluated : List String
  conditions_passed : Bool
  actions_attempted : List (String × Option PyError)
  cond_error : Option PyError
deriving DecidableEq, Repr

/-- The body of `_run_automation` for firing `k`: check the conditions (an
exception there propagates and nothing more of the firing runs), and only
when all passed run `_process_actions`. -/
def run_firing (rb : RuleBehavior) (k : Nat) : FiringRecord :=
  let c := check_conditions k rb.conditions
  match c.2 with
  | .error e => ⟨c.1, false, [], some e⟩
  | .ok false => ⟨c.1, false, [], none⟩
  | .ok true => ⟨c.1, true, process_actions k rb.actions, none⟩

/-- Whether `next_event()` yields a firing with index `k`. -/
def trigger_has_event (rb : RuleBehavior) (k : Nat) : Bool :=
  match rb.numEvents with
  | none => true
  | some m => decide (k < m)

/-- The `async for` loop of `_run_automation`, processing up to `fuel`
firings starting at index `k`: each firing's record is collected in order;
a condition exception escapes the loop body, ending the loop with that
error; exhausting the trigger ends the loop normally. -/
def run_automation_from (rb : RuleBehavior) :
    Nat → Nat → List FiringRecord × Option PyError
  | _, 0 => ([], none)
  | k, fuel + 1 =>
    if trigger_has_event rb k then
      let r := run_firing rb k
      match r.cond_error with
      | some e => ([r], some e)
      | none =>
        let rest := run_automation_from rb (k + 1) fuel
        (r :: rest.1, rest.2)
    else ([], none)

/-- `_run_automation` from the first firing. -/
def run_automation (rb : RuleBehavior) (fuel : Nat) :
    List FiringRecord × Option PyError :=
  run_automation_from rb 0 fuel

theorem check_conditions_all_true (k : Nat)
    (cs : List (String × (Nat → Except PyError Bool)))
    (h : ∀ c ∈ cs, c.2 k = .ok true) :
    check_conditions k cs = (cs.map Prod.fst, .ok true) := by
  induction cs with
  | nil => rfl
  | cons c rest ih =>
    obtain ⟨cname, ev⟩ := c
    have hc : ev k = .ok true := h (cname, ev) (by simp)
    simp [check_conditions, hc, ih (fun d hd => h d (by simp [hd]))]

theorem check_conditions_append_true (k : Nat)
    (pre tail : List (String × (Nat → Except PyError Bool)))
    (hpre : ∀ c ∈ pre, c.2 k = .ok true) :
    check_conditions k (pre ++ tail) =
      (pre.map Prod.fst ++ (check_conditions k tail).1,
        (check_conditions k tail).2) := by
  induction pre with
  | nil => simp
  | cons c rest ih =>
    obtain ⟨cname, ev⟩ := c
    have hc : ev k = .ok true := hpre (cname, ev) (by simp)
    simp [check_conditions, hc, ih (fun d hd => hpre d (by simp [hd]))]

/-- Claim C4 (confirmed): at any trigger firing whose conditions all pass
(including an empty condition list), every action in the rule's action list
is attempted in declared order — an exception raised by one action's
`process()` is caught and recorded, and the next action is still attempted —
and the rule's loop then continues to the next firing. -/
theorem claim4_actions_isolated (rb : RuleBehavior) (k fuel : Nat)
    (hconds : ∀ c ∈ rb.conditions, c.2 k = .ok true)
    (htrig : trigger_has_event rb k = true) :
    run_firing rb k = ⟨rb.conditions.map Prod.fst, true,
      process_actions k rb.actions, none⟩ ∧
    (process_actions k rb.actions).map Prod.fst = rb.actions.map Prod.fst ∧
    run_automation_from rb k (fuel + 1) =
      (run_firing rb k :: (run_automation_from rb (k + 1) fuel).1,
        (run_automation_from rb (k + 1) fuel).2) := by
  have hfire : run_firing rb k = ⟨rb.conditions.map Prod.fst, true,
      process_actions k rb.actions, none⟩ := by
    simp [run_firing, check_conditions_all_true k rb.conditions hconds]
  refine ⟨hfire, ?_, ?_⟩
  · simp [process_actions]
  · simp [run_automation_from, htrig, hfire]

/-- Claim C4 witness: empty conditions, action `A1` always raising and `A2`
succeeding: one firing attempts `A1`, records its caught failure, still
attempts `A2`, and the loop goes on to the next firing. -/
theorem claim4_witness :
    run_firing
        ⟨"T", none, [], [("A1", fun _ => .error (.exc "boom")),
          ("A2", fun _ => .ok ())]⟩ 0 =
      ⟨[], true, [("A1", some (.exc "boom")), ("A2", none)], none⟩ ∧
    (run_automation
        ⟨"T", none, [], [("A1", fun _ => .error (.exc "boom")),
          ("A2", fun _ => .ok ())]⟩ 2).1.length = 2 := by
  have h := claim4_actions_isolated
    ⟨"T", none, [], [("A1", fun _ => .error (.exc "boom")),
      ("A2", fun _ => .ok ())]⟩ 0 1 (by simp) rfl
  refine ⟨h.1.trans (by simp [process_actions]), ?_⟩
  rw [run_automation, h.2.2]
  have h1 := claim4_actions_isolated
    ⟨"T", none, [], [("A1", fun _ => .error (.exc "boom")),
      ("A2", fun _ => .ok ())]⟩ 1 0 (by simp) rfl
  rw [h1.2.2]
  simp [run_automation_from]

/-- Claim C5 (confirmed): conditions are evaluated strictly in declared
order and evaluation short-circuits at the first condition returning
`False`: the evaluation trace is exactly the earlier (all-true) conditions
followed by the failing one — `evaluate()` is never called on any later
condition — and no action is attempted for that firing. -/
theorem claim5_short_circuit (rb : RuleBehavior) (k : Nat)
    (pre : List (String × (Nat → Except PyError Bool))) (cname : String)
    (cf : Nat → Except PyError Bool)
    (post : List (String × (Nat → Except PyError Bool)))
    (hshape : rb.conditions = pre ++ (cname, cf) :: post)
    (hpre : ∀ c ∈ pre, c.2 k = .ok true)
    (hfalse : cf k = .ok false) :
    run_firing rb k = ⟨pre.map Prod.fst ++ [cname], false, [], none⟩ := by
  simp [run_firing, hshape, check_conditions_append_true k pre _ hpre,
    check_conditions, hfalse]

/-- Claim C5 witness: conditions `[C1 = false, C2]`: one firing evaluates
only `C1` — `C2.evaluate()` is never called — and runs no action. -/
theorem claim5_witness :
    run_firing
        ⟨"T", none, [("C1", fun _ => .ok false), ("C2", fun _ => .ok true)],
          [("A", fun _ => .ok ())]⟩ 0 =
      ⟨["C1"], false, [], none⟩ :=
  claim5_short_circuit
    ⟨"T", none, [("C1", fun _ => .ok false), ("C2", fun _ => .ok true)],
      [("A", fun _ => .ok ())]⟩ 0
    [] "C1" (fun _ => .ok false) [("C2", fun _ => .ok true)] rfl (by simp) rfl

/-- Claim C7 (confirmed): an exception raised by a condition's `evaluate()`
is not caught by the per-firing handling: no action of that firing is
attempted and the exception escapes `_check_conditions` and the loop body of
`_run_automation`, ending the loop with that error (no later firing is
processed). -/
theorem claim7_condition_error_propagates (rb : RuleBehavior) (k fuel : Nat)
    (pre : List (String × (Nat → Except PyError Bool))) (cname : String)
    (cf : Nat → Except PyError Bool)
    (post : List (String × (Nat → Except PyError Bool))) (e : PyError)
    (hshape : rb.conditions = pre ++ (cname, cf) :: post)
    (hpre : ∀ c ∈ pre, c.2 k = .ok true)
    (herr : cf k = .error e)
    (htrig : trigger_has_event rb k = true) :
    run_firing rb k = ⟨pre.map Prod.fst ++ [cname], false, [], some e⟩ ∧
    run_automation_from rb k (fuel + 1) = ([run_firing rb k], some e) := by
  have hfire : run_firing rb k = ⟨pre.map Prod.fst ++ [cname], false, [], some e⟩ := by
    simp [run_firing, hshape, check_conditions_append_true k pre _ hpre,
      check_conditions, herr]
  exact ⟨hfire, by simp [run_automation_from, htrig, hfire]⟩

/-- Claim C7 witness: a single condition raising at the first firing: no
action is attempted and the loop ends with that error after one record. -/
theorem claim7_witness :
    run_automation
        ⟨"T", none, [("C", fun _ => .error (.exc "boom"))],
          [("A", fun _ => .ok ())]⟩ 5 =
      ([⟨["C"], false, [], some (.exc "boom")⟩], some (.exc "boom")) := by
  have h := claim7_condition_error_propagates
    ⟨"T", none, [("C", fun _ => .error (.exc "boom"))], [("A", fun _ => .ok ())]⟩
    0 4 [] "C" (fun _ => .error (.exc "boom")) [] (.exc "boom") rfl (by simp) rfl rfl
  rw [run_automation, h.2, h.1]
  simp

/-- The asyncio task backing one rule's loop, as observed by `stop`:
`task.done()` and whether `task.cancel()` has been issued. -/
structure LoopTask where
  detail : AutomationDetails
  cancelled : Bool
  done : Bool
deriving DecidableEq, Repr

/-- The mutable state of the `Automation` facade relevant to the lifecycle
operations: the stored automations configuration, the bound rules and the
task list. -/
structure EngineState where
  automations_config : AutomationsConfig
  automation_details : List AutomationDetails
  automation_tasks : List LoopTask
deriving DecidableEq, Repr

/-- The `if not task.done(): task.cancel()` step applied to one task. -/
def cancel_task (t : LoopTask) : LoopTask :=
  if t.done then t else { t with cancelled := true }

/-- `stop`: `if self.automation_tasks:` then for every task not already
`done()`, issue `cancel()`.  Nothing else is touched and nothing is
raised. -/
def stop (s : EngineState) : EngineState :=
  if s.automation_tasks.isEmpty then s
  else { s with automation_tasks := s.automation_tasks.map cancel_task }

/-- `start`: `_create_automation_details()` (which appends to
`self.automation_details` and can raise), then one fresh task per element of
`self.automation_details`; on a binding exception the task list is left
untouched. -/
def start (allE allC allA : Reg) (s : EngineState) : EngineState × Option PyError :=
  let r := create_automation_details allE allC allA s.automations_config
    s.automation_details
  match r.2 with
  | some e => ({ s with automation_details := r.1 }, some e)
  | none =>
    ({ s with
      automation_details := r.1,
      automation_tasks := r.1.map (fun d => ⟨d, false, false⟩) }, none)

/-- `restart`: raises `DisabledError("Automations are disabled")` before
anything else when the global enable flag is off; otherwise `stop()`, reload
the stored config (the external `get_tentacle_config` is modelled by the
`new_cfg` argument), persist user inputs, and `start()`.
Modelled from the spec: `load_and_save_user_inputs` is an external
`octobot_commons` API whose effect on engine state, per the spec's
"reloads configuration from storage and persists any derived user-input
defaults before rebuilding", is to run `init_user_inputs`, which resets
`self.automation_details` to `[]`. -/
def restart (enable_automations : Bool) (allE allC allA : Reg)
    (new_cfg : AutomationsConfig) (s : EngineState) :
    EngineState × Option PyError :=
  if enable_automations then
    let s1 := stop s
    start allE allC allA ⟨new_cfg, [], s1.automation_tasks⟩
  else (s, some (.disabledError "Automations are disabled"))

/-- The Dispatcher is in the Stopped state: every task is done or has been
cancelled, so no loop is live. -/
def is_stopped (s : EngineState) : Bool :=
  s.automation_tasks.all (fun t => t.done || t.cancelled)

/-- Claim C6 (confirmed): `restart()` while the global automation enable
flag is false raises `DisabledError` before `stop()` is called, leaving the
running loops, the automation task list, and the stored automations
configuration exactly as they were. -/
theorem claim6_restart_disabled (allE allC allA : Reg)
    (new_cfg : AutomationsConfig) (s : EngineState) :
    restart false allE allC allA new_cfg s =
      (s, some (.disabledError "Automations are disabled")) := rfl

/-- Claim C9 (confirmed): `stop()` is idempotent: a second `stop()` observes
the already-cancelled tasks, changes nothing and raises nothing, and the
Dispatcher is left in the Stopped state. -/
theorem cancel_task_idem (t : LoopTask) :
    cancel_task (cancel_task t) = cancel_task t := by
  by_cases hd : t.done <;> simp [cancel_task, hd]

theorem cancel_task_not_live (t : LoopTask) :
    ((cancel_task t).done || (cancel_task t).cancelled) = true := by
  by_cases hd : t.done <;> simp [cancel_task, hd]

theorem claim9_stop_idempotent (s : EngineState) :
    stop (stop s) = stop s ∧ is_stopped (stop s) = true := by
  obtain ⟨cfg, dets, tasks⟩ := s
  cases tasks with
  | nil => exact ⟨rfl, rfl⟩
  | cons t0 rest =>
    constructor
    · simp [stop, Function.comp, cancel_task_idem]
    · simp only [stop, List.isEmpty_cons, Bool.false_eq_true, if_neg, if_false,
        is_stopped, List.all_eq_true, List.map_cons, List.mem_cons, List.mem_map]
      rintro t (rfl | ⟨u, _, rfl⟩)
      · exact cancel_task_not_live t0
      · exact cancel_task_not_live u

/-- A task spawned by `start`, identified by the index of the rule whose
loop it runs in the `automation_details` list passed to `start`. -/
structure DTask where
  rule_index : Nat
  cancelled : Bool
  done : Bool
deriving DecidableEq, Repr

/-- The Dispatcher's concurrently observable state: the rules of the current
generation and the tasks backing their loops. -/
structure DispatchState where
  rules : List RuleBehavior
  tasks : List DTask

/-- The list comprehension of `start`: one fresh task per rule, in order. -/
def mk_tasks : Nat → List DTask
  | 0 => []
  | n + 1 => mk_tasks n ++ [⟨n, false, false⟩]

/-- Whether the loop of `rb` actually terminates within `fuel` firings:
either a condition exception ended it, or the trigger sequence was finite
and has been fully consumed (so `_run_automation` returned). -/
def loop_ends_within (rb : RuleBehavior) (fuel : Nat) : Bool :=
  match run_automation rb fuel with
  | (_, some _) => true
  | (_, none) =>
    match rb.numEvents with
    | some m => decide (m ≤ fuel)
    | none => false

/-- The placeholder rule used for out-of-range index reads. -/
def default_rb : RuleBehavior := ⟨"", some 0, [], []⟩

/-- Events observable on the Dispatcher while it runs: `start` (one task
spawned per bound rule of the fresh generation), `stop` (cancel every task
not yet done), and the asyncio scheduler completing task `i` because its
loop genuinely ended (shown by `fuel` firings). -/
inductive DispatchEvent where
  | start (rules : List RuleBehavior)
  | stop
  | task_finished (i fuel : Nat)

/-- One Dispatcher transition per event. -/
def dispatch_step (s : DispatchState) : DispatchEvent → DispatchState
  | .start rules => ⟨rules, mk_tasks rules.length⟩
  | .stop =>
    if s.tasks.isEmpty then s
    else ⟨s.rules, s.tasks.map (fun t =>
      if t.done then t else { t with cancelled := true })⟩
  | .task_finished i fuel =>
    match s.tasks.get? i with
    | none => s
    | some t =>
      if t.cancelled || t.done then s
      else if loop_ends_within (s.rules.getD t.rule_index default_rb) fuel then
        ⟨s.rules, s.tasks.set i { t with done := true }⟩
      else s

/-- The Dispatcher before any lifecycle operation. -/
def dispatch_init : DispatchState := ⟨[], []⟩

/-- The state after a sequence of Dispatcher events. -/
def run_dispatch (es : List DispatchEvent) : DispatchState :=
  es.foldl dispatch_step dispatch_init

/-- Whether the Dispatcher is in the Running state after the events: a
`start` has happened with no `stop` since. -/
def running_after (es : List DispatchEvent) : Bool :=
  es.foldl (fun r e =>
    match e with
    | .start _ => true
    | .stop => false
    | .task_finished _ _ => r) false

/-- How many live (neither cancelled nor done) loops rule number `i`
currently has. -/
def live_loops_for (s : DispatchState) (i : Nat) : Nat :=
  (s.tasks.filter (fun t => t.rule_index == i && !t.cancelled && !t.done)).length

theorem mk_tasks_filter_live (n i : Nat) :
    (mk_tasks n).filter (fun t => t.rule_index == i && !t.cancelled && !t.done) =
      if i < n then [⟨i, false, false⟩] else [] := by
  induction n with
  | zero => simp [mk_tasks]
  | succ m ih =>
    rw [mk_tasks, List.filter_append, ih]
    by_cases h : i < m
    · have hne : (m == i) = false := by simp [Nat.ne_of_gt h]
      simp [h, Nat.lt_succ_of_lt h, List.filter, hne]
    · by_cases he : i = m
      · subst he
        simp [h, List.filter]
      · have hgt : ¬ i < m + 1 := by omega
        have hne : (m == i) = false := by simpa using Ne.symm he
        simp [h, hgt, List.filter, hne]

theorem live_loops_set_not_live (l : List DTask) (j : Nat) (v : DTask) (i : Nat)
    (hv : (v.rule_index == i && !v.cancelled && !v.done) = false) :
    ((l.set j v).filter (fun t => t.rule_index == i && !t.cancelled && !t.done)).length ≤
      (l.filter (fun t => t.rule_index == i && !t.cancelled && !t.done)).length := by
  induction l generalizing j with
  | nil => simp
  | cons x xs ih =>
    cases j with
    | zero =>
      simp only [List.set_cons_zero, List.filter_cons, hv]
      by_cases hx : (x.rule_index == i && !x.cancelled && !x.done) = true
      · simp [hx]
      · simp only [hx, if_false, Bool.false_eq_true]
        exact Nat.le_refl _
    | succ j' =>
      simp only [List.set_cons_succ, List.filter_cons]
      by_cases hx : (x.rule_index == i && !x.cancelled && !x.done) = true
      · simp only [hx, if_true, List.length_cons]
        exact Nat.succ_le_succ (ih j')
      · simp only [hx, if_false, Bool.false_eq_true]
        exact ih j'

theorem live_loops_step_le_one (s : DispatchState) (e : DispatchEvent) (i : Nat)
    (h : live_loops_for s i ≤ 1) : live_loops_for (dispatch_step s e) i ≤ 1 := by
  cases e with
  | start rules =>
    simp only [dispatch_step, live_loops_for, mk_tasks_filter_live]
    by_cases hi : i < rules.length <;> simp [hi]
  | stop =>
    by_cases he : s.tasks.isEmpty
    · simpa [dispatch_step, he] using h
    · simp only [dispatch_step, he, if_false, Bool.false_eq_true, live_loops_for]
      have : (s.tasks.map (fun t => if t.done then t else { t with cancelled := true })).filter
          (fun t => t.rule_index == i && !t.cancelled && !t.done) = [] := by
        rw [List.filter_eq_nil_iff]
        intro t ht
        rw [List.mem_map] at ht
        obtain ⟨u, _, rfl⟩ := ht
        by_cases hd : u.done <;> simp [hd]
      simp [this]
  | task_finished j fuel =>
    simp only [dispatch_step]
    cases hg : s.tasks.get? j with
    | none => exact h
    | some t =>
      by_cases hlive : (t.cancelled || t.done) = true
      · simpa [hlive] using h
      · simp only [hlive, Bool.false_eq_true, if_false]
        by_cases hends : loop_ends_within (s.rules.getD t.rule_index default_rb) fuel = true
        · rw [if_pos hends]
          exact le_trans (live_loops_set_not_live s.tasks j _ i (by simp)) h
        · rw [if_neg hends]
          exact h

/-- Claim C8 (corrected): `start()` spawns exactly one task for each element
of `automation_details`, so immediately after `start` every bound rule has
exactly one live loop; and along every sequence of Dispatcher events no rule
ever has more than one live loop.  (A rule can however reach zero live loops
while the Dispatcher is still running, when its own loop terminates — see
the counterexample.) -/
theorem claim8_one_loop_per_rule :
    (∀ (s : DispatchState) (rules : List RuleBehavior) (i : Nat),
      i < rules.length →
      live_loops_for (dispatch_step s (.start rules)) i = 1) ∧
    (∀ (es : List DispatchEvent) (i : Nat),
      live_loops_for (run_dispatch es) i ≤ 1) := by
  constructor
  · intro s rules i hi
    simp [dispatch_step, live_loops_for, mk_tasks_filter_live, hi]
  · intro es i
    suffices hgen : ∀ (s : DispatchState), live_loops_for s i ≤ 1 →
        live_loops_for (es.foldl dispatch_step s) i ≤ 1 by
      exact hgen dispatch_init (by simp [live_loops_for, dispatch_init])
    induction es with
    | nil => intro s hs; simpa using hs
    | cons e rest ih =>
      intro s hs
      exact ih (dispatch_step s e) (live_loops_step_le_one s e i hs)

/-- The rule used in the Claim C8 scenarios: its single condition raises at
the first firing, so its loop terminates on its own. -/
def rb_failing_cond : RuleBehavior :=
  ⟨"T", none, [("C", fun _ => .error (.exc "boom"))], []⟩

/-- Claim C8 witness: starting one rule gives it exactly one live loop, and
no trace ever gives a rule more than one. -/
theorem claim8_witness :
    live_loops_for (dispatch_step dispatch_init (.start [rb_failing_cond])) 0 = 1 ∧
    live_loops_for (run_dispatch [.start [rb_failing_cond], .stop]) 0 ≤ 1 :=
  ⟨claim8_one_loop_per_rule.1 dispatch_init [rb_failing_cond] 0 (by simp),
    claim8_one_loop_per_rule.2 [.start [rb_failing_cond], .stop] 0⟩

/-- Claim C8 counterexample: after `start` with one bound rule whose
condition raises at the first firing, the rule's loop terminates on its own;
the Dispatcher is still Running (no `stop` happened) yet the rule has zero
live loops — refuting "no Rule ever has zero ... live loop at the same
time" while running. -/
theorem claim8_counterexample :
    running_after [.start [rb_failing_cond], .task_finished 0 1] = true ∧
    (run_dispatch [.start [rb_failing_cond], .task_finished 0 1]).rules.length = 1 ∧
    live_loops_for (run_dispatch [.start [rb_failing_cond], .task_finished 0 1]) 0 = 0 := by
  refine ⟨rfl, rfl, ?_⟩
  rfl

end Automation
